import Mathlib

/-!
Verification development for the LIT (Language Interpretability Tool) client
excerpt consisting of the classification results module
(classification_module.ts) and the slice editor module (slice_module.ts).

The embedding is shallow: TypeScript values delivered by the data service are
modelled by the small universe `JSVal` (with `null` standing for both the JS
`null` and `undefined`, which the source only ever distinguishes through the
loose `== null` check), scores are rationals, and JS objects used as
string-keyed dictionaries are modelled as insertion-ordered association lists
with overwrite-on-assign semantics (`objAssign`), matching the observable
behaviour of JS object property assignment and `Object.assign`.

A computation that can throw a TypeError (reading `.length` of `null`) is
modelled in the `Option` monad, `none` meaning the exception.
-/

namespace LitSpec

/-- Values returned by the external data service `getVal`:
`null` (covering the JS null and undefined), strings, numbers, and score
vectors (arrays of numbers, modelled with rationals). -/
inductive JSVal where
  | null : JSVal
  | str : String → JSVal
  | num : ℚ → JSVal
  | arr : List ℚ → JSVal
deriving DecidableEq, Repr

/-- First-match lookup in a string-keyed association list, the observable
behaviour of reading a property of a JS object used as a dictionary. -/
def lookupKey {α : Type} : List (String × α) → String → Option α
  | [], _ => none
  | p :: rest, k => if p.1 = k then some p.2 else lookupKey rest k

/-- JS object property assignment `obj[k] = v`: overwrite in place when the
key exists, append otherwise (JS insertion order of keys). -/
def objAssign {α : Type} (m : List (String × α)) (k : String) (v : α) :
    List (String × α) :=
  if (lookupKey m k).isSome then
    m.map (fun p => if p.1 = k then (k, v) else p)
  else m ++ [(k, v)]

/-- `Object.assign(target, source)`: assign every key of the source into the
target, in source order. -/
def assignAll {α : Type} (target source : List (String × α)) :
    List (String × α) :=
  source.foldl (fun acc kv => objAssign acc kv.1 kv.2) target

/-- classification_module.ts line 38: the constant 0.01. -/
def SPARSE_MODE_THRESHOLD : ℚ := mkRat 1 100

/-- classification_module.ts lines 40 to 45.  `value` is `Option ℚ` because
`predScores[i]` is `undefined` when the index is out of range; `color` is
absent (`none`) when no coloring applies or the color range is exhausted. -/
structure DisplayInfo where
  value : Option ℚ
  isTruth : Bool
  isPredicted : Bool
  color : Option String
deriving DecidableEq, Repr

/-- classification_module.ts lines 47 to 49 (a JS object keyed by label). -/
abbrev LabelRows := List (String × List DisplayInfo)

/-- classification_module.ts lines 51 to 53 (a JS object keyed by prediction
head column name). -/
abbrev LabeledPredictions := List (String × LabelRows)

/-- The `MulticlassPreds` field spec: optional ground-truth parent feature
name and optional vocabulary (`undefined` when the head declares none). -/
structure MulticlassPreds where
  parent : Option String
  vocab : Option (List String)
deriving DecidableEq, Repr

/-- The two calculated column variants requested from the data service in
`parseResult` (`CalculatedColumnType.PREDICTED_CLASS` and `CORRECT`). -/
inductive CalculatedColumnType where
  | predicted_class : CalculatedColumnType
  | correct : CalculatedColumnType
deriving DecidableEq, Repr

/-- An `IndexedInput` as used by `parseResult`, which only reads its `id`. -/
structure Input where
  id : String
deriving DecidableEq, Repr

/-- The reactive environment of the classification module at one update:
the observable dependencies listed in `connectedCallback` together with the
external services the update reads (app state model specs, data service
lookups, color service). Function-valued fields model the external
collaborator interfaces exactly as consumed. -/
structure Env where
  compareExamplesEnabled : Bool
  pinnedPrimary : Option Input
  selectedPrimary : Option Input
  currentModels : List String
  modelHeads : String → List (String × MulticlassPreds)
  getColumnName : String → String → Option CalculatedColumnType → String
  getVal : String → String → JSVal
  colorOptionName : String
  colorRange : List String
  sparseMode : Bool

/-- The per-input record built at classification_module.ts lines 161 to 165:
score vector, predicted class and ground truth value for one input row. -/
structure InputDatum where
  predScores : JSVal
  predClass : JSVal
  truth : JSVal
deriving DecidableEq, Repr

/-- classification_module.ts lines 161 to 165. -/
def inputDatumFor (env : Env) (topLevelKey predClassKey : String)
    (parent : Option String) (i : Input) : InputDatum :=
  { predScores := env.getVal i.id topLevelKey
    predClass := env.getVal i.id predClassKey
    truth := match parent with
      | some p => env.getVal i.id p
      | none => JSVal.null }

/-- JS strict equality between a data-service value and a string label. -/
def jsEqStr (v : JSVal) (s : String) : Bool :=
  match v with
  | JSVal.str t => t = s
  | _ => false

/-- JS indexing `v[i]` for a score vector: `undefined` (`none`) when out of
range or when the value is not an array. -/
def indexVal (v : JSVal) (i : Nat) : Option ℚ :=
  match v with
  | JSVal.arr xs => xs.get? i
  | _ => none

/-- The JS comparison `value >= SPARSE_MODE_THRESHOLD`, which is false when
`value` is `undefined`. -/
def scoreAboveThreshold (v : Option ℚ) : Bool :=
  match v with
  | some q => SPARSE_MODE_THRESHOLD ≤ q
  | none => false

/-- classification_module.ts lines 167 to 170: the label list is the declared
vocabulary, or, when no vocabulary is declared, the stringified positional
indices of the first input datum's score vector.  Reading `.length` of a
`null` score vector (or of a missing first datum) throws a TypeError,
modelled as `none`.  A string has a JS `.length`; a number has none, and
`Array.from` with an undefined length yields the empty array. -/
def labelsFor (vocab : Option (List String)) (inputData : List InputDatum) :
    Option (List String) :=
  match vocab with
  | some v => some v
  | none =>
    match inputData with
    | [] => none
    | d :: _ =>
      match d.predScores with
      | JSVal.arr xs => some ((List.range xs.length).map (fun k => toString k))
      | JSVal.null => none
      | JSVal.str s => some ((List.range s.length).map (fun k => toString k))
      | JSVal.num _ => some []

/-- The body of the loop at classification_module.ts lines 188 to 216: the
contribution of one input datum to the row list of label `label` at
vocabulary index `i`, or `none` when the datum contributes nothing. -/
def rowPredFor (sparseMode applyColor : Bool)
    (colorOptionName predCorrectKey : String) (colorRange : List String)
    (label : String) (i : Nat) (d : InputDatum) : Option DisplayInfo :=
  match d.predScores with
  | JSVal.null =>
    if !sparseMode then
      some { value := some 0, isTruth := false, isPredicted := false,
             color := none }
    else none
  | _ =>
    let value := indexVal d.predScores i
    let isPredicted := jsEqStr d.predClass label
    let isTruth := jsEqStr d.truth label
    if !sparseMode || scoreAboveThreshold value then
      some { value := value, isTruth := isTruth, isPredicted := isPredicted,
             color :=
               if applyColor then
                 if colorOptionName = predCorrectKey then
                   colorRange.get? (if isTruth then 1 else 0)
                 else colorRange.get? i
               else none }
    else none

/-- The `labels.forEach` loop at classification_module.ts lines 184 to 219:
build the label-keyed row table for one prediction head, skipping labels
whose row list is empty. -/
def headRows (sparseMode applyColor : Bool)
    (colorOptionName predCorrectKey : String) (colorRange : List String)
    (labels : List String) (inputData : List InputDatum) : LabelRows :=
  labels.enum.foldl
    (fun acc il =>
      let rowPreds := inputData.filterMap
        (rowPredFor sparseMode applyColor colorOptionName predCorrectKey
          colorRange il.2 il.1)
      if rowPreds.isEmpty then acc else objAssign acc il.2 rowPreds)
    []

/-- One iteration of the prediction-head loop at classification_module.ts
lines 153 to 220: the column name and label-keyed rows for one head, or
`none` when label derivation throws. -/
def parseHead (env : Env) (model predKey : String) (spec : MulticlassPreds)
    (inputs : List Input) : Option (String × LabelRows) :=
  let topLevelKey := env.getColumnName model predKey none
  let predClassKey :=
    env.getColumnName model predKey (some CalculatedColumnType.predicted_class)
  let predCorrectKey :=
    env.getColumnName model predKey (some CalculatedColumnType.correct)
  let inputData :=
    inputs.map (inputDatumFor env topLevelKey predClassKey spec.parent)
  match labelsFor spec.vocab inputData with
  | none => none
  | some labels =>
    let applyColor : Bool :=
      env.colorOptionName = predClassKey ∨
      env.colorOptionName = predCorrectKey ∨
      spec.parent = some env.colorOptionName
    let colorRange := if applyColor then env.colorRange else []
    some (topLevelKey,
      headRows env.sparseMode applyColor env.colorOptionName predCorrectKey
        colorRange labels inputData)

/-- The head loop of `parseResult`, threading the result object through each
head; an exception in any head aborts the whole call. -/
def parseHeads (env : Env) (model : String) (inputs : List Input) :
    List (String × MulticlassPreds) → LabeledPredictions →
    Option LabeledPredictions
  | [], acc => some acc
  | hd :: rest, acc =>
    match parseHead env model hd.1 hd.2 inputs with
    | none => none
    | some tr => parseHeads env model inputs rest (objAssign acc tr.1 tr.2)

/-- classification_module.ts lines 144 to 223 (`parseResult`). -/
def parseResult (env : Env) (model : String) (inputs : List Input) :
    Option LabeledPredictions :=
  parseHeads env model inputs (env.modelHeads model) []

/-- classification_module.ts lines 112 to 123: the input rows of one update,
the pinned datapoint first when comparison mode is on and a pinned datapoint
exists, then the selected datapoint when present. -/
def selectionData (env : Env) : List Input :=
  (if env.compareExamplesEnabled then env.pinnedPrimary.toList else []) ++
    env.selectedPrimary.toList

/-- The model loop at classification_module.ts lines 132 to 135:
`Object.assign` each model's parse result into the module state. -/
def runModels (env : Env) (data : List Input) :
    List String → LabeledPredictions → Option LabeledPredictions
  | [], acc => some acc
  | m :: rest, acc =>
    match parseResult env m data with
    | none => none
    | some lp => runModels env data rest (assignAll acc lp)

/-- classification_module.ts lines 111 to 136 (`updateSelection`), as a
transformation of the `labeledPredictions` module state: reset to the empty
object when there is no pinned or selected datapoint, otherwise assign every
model's parse result on top of the previous state. -/
def updateSelection (env : Env) (prev : LabeledPredictions) :
    Option LabeledPredictions :=
  if (selectionData env).isEmpty then some []
  else runModels env (selectionData env) env.currentModels prev

/-- A cell of the rendered feature table: the class label, a score bar
carrying a display value, or the numeric delta column (`none` for NaN). -/
inductive TableCell where
  | text : String → TableCell
  | bar : Option ℚ → TableCell
  | num : Option ℚ → TableCell
deriving DecidableEq, Repr

/-- classification_module.ts lines 288 to 292: when exactly a pinned and a
selected value are present, append `Math.abs(pinned - selected)`; the JS
subtraction yields NaN (`none`) when either value is `undefined`. -/
def deltaCell (values : List DisplayInfo) : List TableCell :=
  match values with
  | [p, s] =>
    [TableCell.num
      (match p.value, s.value with
       | some a, some b => some |a - b|
       | _, _ => none)]
  | _ => []

/-- The row built for one label at classification_module.ts lines 283 to
295. -/
def rowFor (label : String) (values : List DisplayInfo) : List TableCell :=
  TableCell.text label :: values.map (fun v => TableCell.bar v.value) ++
    deltaCell values

/-- classification_module.ts lines 283 to 295: the data rows of
`renderFeatureTable`. -/
def renderFeatureTable (labelRow : LabelRows) : List (List TableCell) :=
  labelRow.map (fun lv => rowFor lv.1 lv.2)

/-- The Slice Manager error taxonomy of the spec. -/
inductive SliceError where
  | duplicateName : SliceError
  | unknownSlice : SliceError
  | protectedSlice : SliceError
deriving DecidableEq, Repr

/-- Modelled from the spec: the reserved starred slice name exported by the
slice service (`STARRED_SLICE_NAME`), whose definition is not part of the
excerpt; only its role as a distinguished constant matters. -/
def STARRED_SLICE_NAME : String := "Starred"

/-- Modelled from the spec: the slice service state, a list of named slices
in insertion order, each holding a set of datapoint ids. -/
structure SliceState where
  slices : List (String × Finset String)
deriving DecidableEq

/-- Modelled from the spec: the read-side query for a slice's id set,
returning `none` for an unknown name. -/
def getSliceIds (st : SliceState) (name : String) : Option (Finset String) :=
  lookupKey st.slices name

/-- Replace the id set of the named slice, leaving every other slice
unchanged. -/
def setSliceIds (st : SliceState) (name : String) (ids : Finset String) :
    SliceState :=
  ⟨st.slices.map (fun p => if p.1 = name then (name, ids) else p)⟩

/-- Modelled from the spec: `addIds(name, ids)` is set-union on the named
slice's id set, failing with `UnknownSliceError` when the name does not
exist (`sliceService.addIdsToSlice`, not part of the excerpt). -/
def addIds (st : SliceState) (name : String) (ids : Finset String) :
    Except SliceError SliceState :=
  match getSliceIds st name with
  | none => Except.error SliceError.unknownSlice
  | some cur => Except.ok (setSliceIds st name (cur ∪ ids))

/-- Modelled from the spec: `removeIds(name, ids)` is set-difference on the
named slice's id set, failing with `UnknownSliceError` when the name does
not exist (`sliceService.removeIdsFromSlice`, not part of the excerpt). -/
def removeIds (st : SliceState) (name : String) (ids : Finset String) :
    Except SliceError SliceState :=
  match getSliceIds st name with
  | none => Except.error SliceError.unknownSlice
  | some cur => Except.ok (setSliceIds st name (cur \ ids))

/-- Modelled from the spec: `deleteSlice(name)` removes the slice, failing
with `ProtectedSliceError` on the reserved starred slice and with
`UnknownSliceError` on an absent name (`sliceService.deleteNamedSlice`, not
part of the excerpt). -/
def deleteSlice (st : SliceState) (name : String) :
    Except SliceError SliceState :=
  if name = STARRED_SLICE_NAME then Except.error SliceError.protectedSlice
  else
    match getSliceIds st name with
    | none => Except.error SliceError.unknownSlice
    | some _ => Except.ok ⟨st.slices.filter (fun p => ¬ p.1 = name)⟩

/-- slice_module.ts lines 226 to 230: the clear action removes the slice's
full current id set from the slice (an absent slice contributes the empty
id list via the `?? []` default). -/
def clearClicked (st : SliceState) (name : String) :
    Except SliceError SliceState :=
  removeIds st name ((getSliceIds st name).getD ∅)

/-- The two mutating actions a slice row can offer besides appending. -/
inductive SliceRowAction where
  | clearAction : SliceRowAction
  | deleteAction : SliceRowAction
deriving DecidableEq, Repr

/-- slice_module.ts lines 249 to 262: the starred slice gets a clear icon,
every other slice a delete icon. -/
def sliceRowAction (sliceName : String) : SliceRowAction :=
  if sliceName = STARRED_SLICE_NAME then SliceRowAction.clearAction
  else SliceRowAction.deleteAction

/-- Modelled from the spec: `groupExamplesByFeatures` of the external
GroupService, restricted to a single grouping feature.  `getLabel` abstracts
the per-row label: the row's discrete feature value for a categorical
feature, or its numeric bin label under the supplied bins, and `none` when
the feature is undefined for the row.  Rows are partitioned into one group
per observed label, keyed in first-occurrence order; no group exists for a
label no row has. -/
def groupByFeature (getLabel : Input → Option String) (rows : List Input) :
    List (String × List Input) :=
  ((rows.filterMap getLabel).dedup).map
    (fun l => (l, rows.filter (fun r => getLabel r = some l)))

/-- slice_module.ts lines 130 to 142 (`makeSlicesFromAllLabelCombos`),
specialised to one grouping feature: one slice per group, named by the
prefix followed by the group label, holding the ids of the group's rows. -/
def makeSlicesFromAllLabelCombos (namePfx : String)
    (getLabel : Input → Option String) (rows : List Input) :
    List (String × List String) :=
  (groupByFeature getLabel rows).map
    (fun g => (namePfx ++ g.1, g.2.map Input.id))

/-- A row as exported by `getArrayData`: a cell is the leading dataset index
or a feature value (`none` for a feature missing from the row's data). -/
inductive TableEntry where
  | idx : Int → TableEntry
  | val : Option JSVal → TableEntry
deriving DecidableEq, Repr

/-- An `IndexedInput` as consumed by `getArrayData`: id plus the feature
record, a string-keyed JS object. -/
structure IndexedInput where
  id : String
  data : List (String × JSVal)
deriving DecidableEq, Repr

/-- The slice-module environment for export: the current dataset's column
keys and index lookup (app state) and the slice service's row objects per
slice name, all external collaborator interfaces. -/
structure SliceModuleEnv where
  currentInputDataKeys : List String
  getIndexById : String → Int
  getSliceDataByName : String → List IndexedInput

/-- slice_module.ts lines 179 to 183: one export row, the dataset index of
the datapoint followed by its feature values in dataset column order. -/
def rowData (env : SliceModuleEnv) (row : IndexedInput) : List TableEntry :=
  TableEntry.idx (env.getIndexById row.id) ::
    env.currentInputDataKeys.map (fun c => TableEntry.val (lookupKey row.data c))

/-- slice_module.ts lines 177 to 187 (`getArrayData`). -/
def getArrayData (env : SliceModuleEnv) (sliceName : String) :
    List (List TableEntry) :=
  (env.getSliceDataByName sliceName).map (rowData env)

/-! Concrete instances used by counterexamples and witnesses. -/

/-- A concrete environment: one model with one prediction head that declares
no vocabulary, and a data service that answers null for every column (in
particular the score column), with one selected datapoint. -/
def envC1 : Env where
  compareExamplesEnabled := false
  pinnedPrimary := none
  selectedPrimary := some ⟨"i0"⟩
  currentModels := ["m"]
  modelHeads := fun _ => [("pred", ⟨none, none⟩)]
  getColumnName := fun model predKey t =>
    model ++ ":" ++ predKey ++
      (match t with
       | none => ""
       | some CalculatedColumnType.predicted_class => ":class"
       | some CalculatedColumnType.correct => ":correct")
  getVal := fun _ _ => JSVal.null
  colorOptionName := "color"
  colorRange := []
  sparseMode := false

/-- A concrete environment with sparse mode on, vocabulary a, b, c and one
row whose scores are 0.005, 0.2, 0.795. -/
def envC4 : Env :=
  { envC1 with
    modelHeads := fun _ => [("pred", ⟨none, some ["a", "b", "c"]⟩)]
    getVal := fun _ k =>
      if k = "m:pred" then JSVal.arr [mkRat 1 200, mkRat 1 5, mkRat 159 200]
      else JSVal.null
    sparseMode := true }

/-- A concrete environment whose current model list is m1, every head with
vocabulary a and score vector with the single entry 1. -/
def envC2a : Env :=
  { envC1 with
    currentModels := ["m1"]
    modelHeads := fun _ => [("pred", ⟨none, some ["a"]⟩)]
    getVal := fun _ _ => JSVal.arr [1] }

/-- The environment of the follow-up reactive update: identical to envC2a
except that the current model list changed to m2. -/
def envC2b : Env := { envC2a with currentModels := ["m2"] }

/-- An environment with no pinned and no selected datapoint. -/
def envC10 : Env := { envC1 with selectedPrimary := none }

/-- The label rows produced for one head by an update of the envC2a
family. -/
def rowsA : LabelRows := [("a", [⟨some 1, false, false, none⟩])]

/-- The module state after the first update under envC2a. -/
def prevC2 : LabeledPredictions := [("m1:pred", rowsA)]

/-- The module state after the second update under envC2b: the stale m1
entry survives next to the fresh m2 entry. -/
def lpC2 : LabeledPredictions := [("m1:pred", rowsA), ("m2:pred", rowsA)]

/-- A label row with a pinned value 0.3 and a selected value 0.8. -/
def lrC6 : LabelRows :=
  [("x", [⟨some (mkRat 3 10), false, false, none⟩,
          ⟨some (mkRat 4 5), true, false, none⟩])]

/-- A slice service state with one ordinary slice named s holding id a. -/
def stC3 : SliceState := ⟨[("s", {"a"})]⟩

/-- A slice service state with an ordinary slice and the starred slice. -/
def stC3w : SliceState := ⟨[("s", {"a"}), (STARRED_SLICE_NAME, ∅)]⟩

/-- A slice service state whose starred slice holds id a. -/
def stC7 : SliceState := ⟨[(STARRED_SLICE_NAME, {"a"})]⟩

/-- Three concrete rows for the grouping example. -/
def rowsC8 : List Input := [⟨"r1"⟩, ⟨"r2"⟩, ⟨"r3"⟩]

/-- A concrete single-feature valuation: r1 maps to label x, r2 to label y,
r3 has no defined value. -/
def labelC8 : Input → Option String :=
  fun r => lookupKey [("r1", "x"), ("r2", "y")] r.id

/-- A concrete slice-module environment with two dataset columns and one
datapoint in every slice. -/
def envC9 : SliceModuleEnv where
  currentInputDataKeys := ["f1", "f2"]
  getIndexById := fun _ => 7
  getSliceDataByName := fun _ => [⟨"r1", [("f1", JSVal.num 1)]⟩]

/-! Helper lemmas about lookup and assignment on JS-object association
lists. -/

theorem lookupKey_append {α : Type} (m l : List (String × α)) (k : String) :
    lookupKey (m ++ l) k =
      match lookupKey m k with
      | some v => some v
      | none => lookupKey l k := by
  induction m with
  | nil => simp [lookupKey]
  | cons p rest ih => by_cases hp : p.1 = k <;> simp [lookupKey, hp, ih]

theorem lookupKey_overwrite_self {α : Type} (m : List (String × α))
    (k : String) (v : α) (h : (lookupKey m k).isSome = true) :
    lookupKey (m.map (fun p => if p.1 = k then (k, v) else p)) k = some v := by
  induction m with
  | nil => simp [lookupKey] at h
  | cons p rest ih =>
    by_cases hp : p.1 = k
    · simp [lookupKey, hp]
    · simp [lookupKey, hp] at h ⊢
      exact ih h

theorem lookupKey_overwrite_ne {α : Type} (m : List (String × α))
    (k : String) (v : α) (k2 : String) (h : ¬ k2 = k) :
    lookupKey (m.map (fun p => if p.1 = k then (k, v) else p)) k2 =
      lookupKey m k2 := by
  induction m with
  | nil => simp [lookupKey]
  | cons p rest ih =>
    by_cases hp : p.1 = k
    · have h1 : ¬ p.1 = k2 := by
        rw [hp]
        exact fun hh => h hh.symm
      have h2 : ¬ (k : String) = k2 := fun hh => h hh.symm
      simp [lookupKey, hp, h1, h2, ih]
    · simp [lookupKey, hp, ih]

theorem lookupKey_none_of_not_isSome {α : Type} (m : List (String × α))
    (k : String) (h : ¬ (lookupKey m k).isSome = true) :
    lookupKey m k = none := by
  cases hm : lookupKey m k with
  | none => rfl
  | some v => rw [hm] at h; simp at h

theorem lookupKey_objAssign_self {α : Type} (m : List (String × α))
    (k : String) (v : α) : lookupKey (objAssign m k v) k = some v := by
  unfold objAssign
  by_cases h : (lookupKey m k).isSome = true
  · rw [if_pos h]
    exact lookupKey_overwrite_self m k v h
  · rw [if_neg h, lookupKey_append, lookupKey_none_of_not_isSome m k h]
    simp [lookupKey]

theorem lookupKey_objAssign_ne {α : Type} (m : List (String × α))
    (k : String) (v : α) (k2 : String) (h : ¬ k2 = k) :
    lookupKey (objAssign m k v) k2 = lookupKey m k2 := by
  unfold objAssign
  by_cases hs : (lookupKey m k).isSome = true
  · rw [if_pos hs]
    exact lookupKey_overwrite_ne m k v k2 h
  · rw [if_neg hs, lookupKey_append]
    cases hm : lookupKey m k2 with
    | some v2 => simp
    | none =>
      have h2 : ¬ (k : String) = k2 := fun hh => h hh.symm
      simp [lookupKey, h2]

theorem lookupKey_objAssign_isSome {α : Type} (m : List (String × α))
    (k : String) (v : α) (k2 : String)
    (h : (lookupKey m k2).isSome = true) :
    (lookupKey (objAssign m k v) k2).isSome = true := by
  by_cases hk : k2 = k
  · subst hk
    rw [lookupKey_objAssign_self]
    rfl
  · rw [lookupKey_objAssign_ne m k v k2 hk]
    exact h

theorem lookupKey_assignAll_isSome {α : Type} (s : List (String × α)) :
    ∀ (t : List (String × α)) (k : String),
      (lookupKey t k).isSome = true →
      (lookupKey (assignAll t s) k).isSome = true := by
  induction s with
  | nil => intro t k h; simpa [assignAll] using h
  | cons p rest ih =>
    intro t k h
    have : assignAll t (p :: rest) = assignAll (objAssign t p.1 p.2) rest := by
      simp [assignAll]
    rw [this]
    exact ih _ _ (lookupKey_objAssign_isSome t p.1 p.2 k h)

theorem runModels_isSome_key (env : Env) (data : List Input) :
    ∀ (ms : List String) (acc lp : LabeledPredictions) (k : String),
      runModels env data ms acc = some lp →
      (lookupKey acc k).isSome = true →
      (lookupKey lp k).isSome = true := by
  intro ms
  induction ms with
  | nil =>
    intro acc lp k h hk
    simp [runModels] at h
    rw [← h]
    exact hk
  | cons m rest ih =>
    intro acc lp k h hk
    rw [runModels] at h
    cases hp : parseResult env m data with
    | none => rw [hp] at h; simp at h
    | some lpm =>
      rw [hp] at h
      exact ih _ _ _ h (lookupKey_assignAll_isSome lpm acc k hk)

/-! Lemmas about label derivation and head parsing. -/

theorem labelsFor_isSome (vocab : Option (List String))
    (inputData : List InputDatum)
    (h : vocab.isSome = true ∨
      ∃ d, inputData.head? = some d ∧ ¬ d.predScores = JSVal.null) :
    (labelsFor vocab inputData).isSome = true := by
  cases vocab with
  | some v => rfl
  | none =>
    rcases h with h | ⟨d, hd, hps⟩
    · simp at h
    · cases inputData with
      | nil => simp at hd
      | cons d0 rest =>
        simp at hd
        subst hd
        cases hps2 : d0.predScores with
        | null => exact absurd hps2 hps
        | str s => simp [labelsFor, hps2]
        | num q => simp [labelsFor, hps2]
        | arr xs => simp [labelsFor, hps2]

theorem parseHead_isSome (env : Env) (model pk : String)
    (spec : MulticlassPreds) (inputs : List Input)
    (h : spec.vocab.isSome = true ∨
      ∃ i, inputs.head? = some i ∧
        ¬ env.getVal i.id (env.getColumnName model pk none) = JSVal.null) :
    (parseHead env model pk spec inputs).isSome = true := by
  have hl : (labelsFor spec.vocab
      (inputs.map (inputDatumFor env (env.getColumnName model pk none)
        (env.getColumnName model pk
          (some CalculatedColumnType.predicted_class)) spec.parent))).isSome
        = true := by
    apply labelsFor_isSome
    rcases h with h | ⟨i, hi, hv⟩
    · left; exact h
    · right
      refine ⟨inputDatumFor env (env.getColumnName model pk none)
        (env.getColumnName model pk
          (some CalculatedColumnType.predicted_class)) spec.parent i, ?_, ?_⟩
      · rw [List.head?_map, hi]
        rfl
      · simpa [inputDatumFor] using hv
  obtain ⟨labels, hlabels⟩ := Option.isSome_iff_exists.mp hl
  simp only [parseHead]
  rw [hlabels]
  rfl

theorem parseHeads_isSome (env : Env) (model : String) (inputs : List Input) :
    ∀ (l : List (String × MulticlassPreds)) (acc : LabeledPredictions),
      (∀ pk spec, (pk, spec) ∈ l →
        spec.vocab.isSome = true ∨
        ∃ i, inputs.head? = some i ∧
          ¬ env.getVal i.id (env.getColumnName model pk none) = JSVal.null) →
      (parseHeads env model inputs l acc).isSome = true := by
  intro l
  induction l with
  | nil => intro acc h; rfl
  | cons hd rest ih =>
    intro acc h
    have hhd := h hd.1 hd.2 (by simp)
    obtain ⟨tr, htr⟩ :=
      Option.isSome_iff_exists.mp (parseHead_isSome env model hd.1 hd.2 inputs hhd)
    rw [parseHeads, htr]
    exact ih _ (fun pk spec hmem => h pk spec (List.mem_cons_of_mem hd hmem))

/-! Claim theorems. -/

/-- C1 counterexample: the claim that the Prediction Table Builder never
raises an error is false as stated.  In the explicitly included case of a
head with no declared vocabulary and a null score vector for the first
input row, deriving the label list reads the length of null
(classification_module.ts line 169) and throws a TypeError, modelled here
as the parse returning none instead of a table. -/
theorem C1_counterexample : parseResult envC1 "m" [⟨"i0"⟩] = none := rfl

/-- C1 (amended): building the per-class table raises no error whenever
every multiclass head of the model either declares a vocabulary or the
first input row has a non-null score value for that head; all other missing
or malformed data (null score vectors elsewhere, absent ground truth,
missing predicted class) degrades to empty rows or an empty table. -/
theorem C1_parseResult_no_error (env : Env) (model : String)
    (inputs : List Input)
    (h : ∀ pk spec, (pk, spec) ∈ env.modelHeads model →
      spec.vocab.isSome = true ∨
      ∃ i, inputs.head? = some i ∧
        ¬ env.getVal i.id (env.getColumnName model pk none) = JSVal.null) :
    (parseResult env model inputs).isSome = true :=
  parseHeads_isSome env model inputs (env.modelHeads model) [] h

/-- C1 witness: the amended theorem applied to a head with a declared
vocabulary. -/
theorem C1_parseResult_no_error_witness :
    (parseResult envC4 "m" [⟨"i0"⟩]).isSome = true :=
  C1_parseResult_no_error envC4 "m" [⟨"i0"⟩]
    (by
      intro pk spec hmem
      simp [envC4, envC1] at hmem
      left
      rw [hmem.2]
      rfl)

/-- C2 counterexample: the claim that after two consecutive runs of
updateSelection the resulting labeledPredictions mapping contains only
entries derived from the inputs of the second run is false.  A first run
with current model m1 produces the key m1:pred; a second run with current
model m2 keeps that stale entry next to the fresh m2:pred entry (the
Object.assign at classification_module.ts line 134 merges into the existing
state without resetting it), although a fresh second run from the empty
state produces no m1:pred entry at all. -/
theorem C2_counterexample :
    ((updateSelection envC2a []).bind
        (fun lp1 => updateSelection envC2b lp1) = some lpC2) ∧
      (lookupKey lpC2 "m1:pred").isSome = true ∧
      (updateSelection envC2b []).map
        (fun lp => (lookupKey lp "m1:pred").isSome) = some false := by
  refine ⟨by decide, by decide, by decide⟩

/-- C2 (amended): after a reactive update the labeledPredictions state is
reset to the empty mapping when there is no pinned or selected datapoint,
but otherwise the update only assigns the freshly computed entries on top
of the previous state: every prediction-head key present before the update
is still present after it, so entries whose keys the second run does not
recompute survive from earlier updates (the rendered table instead filters
stale heads by current model at classification_module.ts lines 239 to
241). -/
theorem C2_updateSelection_assign_semantics (env : Env)
    (prev lp : LabeledPredictions) (h : updateSelection env prev = some lp) :
    ((selectionData env).isEmpty = true → lp = []) ∧
    ((selectionData env).isEmpty = false →
      ∀ k, (lookupKey prev k).isSome = true →
        (lookupKey lp k).isSome = true) := by
  constructor
  · intro he
    rw [updateSelection, if_pos he] at h
    exact (Option.some_inj.mp h).symm
  · intro he k hk
    rw [updateSelection, if_neg (by simp [he])] at h
    exact runModels_isSome_key env (selectionData env) env.currentModels
      prev lp k h hk

/-- C2 witness: the amended theorem applied to the second run of the
concrete envC2 family, where the stale m1:pred key survives. -/
theorem C2_updateSelection_assign_semantics_witness :
    ((selectionData envC2b).isEmpty = true → lpC2 = []) ∧
    ((selectionData envC2b).isEmpty = false →
      ∀ k, (lookupKey prevC2 k).isSome = true →
        (lookupKey lpC2 k).isSome = true) :=
  C2_updateSelection_assign_semantics envC2b prevC2 lpC2 (by decide)

/-- C10: when an update fires with no pinned datapoint contribution
(comparison mode off or no pinned row) and no primary selected datapoint,
updateSelection sets the labeled predictions to the empty table and
returns (classification_module.ts lines 126 to 129). -/
theorem C10_updateSelection_bails_empty (env : Env)
    (prev : LabeledPredictions)
    (hpin : env.compareExamplesEnabled = false ∨ env.pinnedPrimary = none)
    (hsel : env.selectedPrimary = none) :
    updateSelection env prev = some [] := by
  have hdata : selectionData env = [] := by
    rcases hpin with hc | hp
    · simp [selectionData, hc, hsel]
    · simp [selectionData, hp, hsel]
  rw [updateSelection, if_pos (by rw [hdata]; rfl)]

/-- C10 witness: the theorem applied to the concrete environment with no
pinned and no selected datapoint and a non-empty previous state. -/
theorem C10_updateSelection_bails_empty_witness :
    updateSelection envC10 prevC2 = some [] :=
  C10_updateSelection_bails_empty envC10 prevC2 (Or.inl rfl) rfl

/-! Helper lemmas for the per-label forEach loop. -/

theorem foldl_const {α β : Type} (f : α → β → α) (hf : ∀ acc b, f acc b = acc) :
    ∀ (l : List β) (acc : α), l.foldl f acc = acc := by
  intro l
  induction l with
  | nil => intro acc; rfl
  | cons b rest ih =>
    intro acc
    rw [List.foldl_cons, hf]
    exact ih acc

theorem foldl_assign_const {α : Type} (v : α)
    (f : List (String × α) → (Nat × String) → List (String × α))
    (hf : ∀ acc il, f acc il = objAssign acc il.2 v) :
    ∀ (l : List (Nat × String)) (acc : List (String × α)) (label : String),
      ((∃ i, (i, label) ∈ l) ∨ lookupKey acc label = some v) →
      lookupKey (l.foldl f acc) label = some v := by
  intro l
  induction l with
  | nil =>
    intro acc label h
    rcases h with ⟨i, hi⟩ | h
    · simp at hi
    · simpa using h
  | cons il rest ih =>
    intro acc label h
    rw [List.foldl_cons, hf]
    apply ih
    rcases h with ⟨i, hi⟩ | h
    · rcases List.mem_cons.mp hi with heq | hmem
      · right
        have h2 : il.2 = label := by rw [← heq]
        rw [← h2]
        exact lookupKey_objAssign_self acc il.2 v
      · left
        exact ⟨i, hmem⟩
    · by_cases hl : label = il.2
      · right
        rw [hl]
        exact lookupKey_objAssign_self acc il.2 v
      · right
        rw [lookupKey_objAssign_ne acc il.2 v label hl]
        exact h

/-- Sample rational arithmetic fact for the delta example. -/
theorem abs_sub_sample : |mkRat 3 10 - mkRat 4 5| = mkRat 1 2 := by
  rw [Rat.mkRat_eq_divInt, Rat.mkRat_eq_divInt, Rat.mkRat_eq_divInt,
    Rat.divInt_eq_div, Rat.divInt_eq_div, Rat.divInt_eq_div]
  norm_num

/-- C4: with sparse mode on, vocabulary a, b, c and scores 0.005, 0.2,
0.795, the builder emits rows only for b and c; in general, for a non-null
score vector a class row survives exactly when its score is at least the
threshold 0.01. -/
theorem C4_sparse_mode_filter :
    (parseResult envC4 "m" [⟨"i0"⟩] =
      some [("m:pred",
        [("b", [⟨some (mkRat 1 5), false, false, none⟩]),
         ("c", [⟨some (mkRat 159 200), false, false, none⟩])])]) ∧
    (∀ (applyColor : Bool) (con pk : String) (cr : List String)
        (label : String) (i : Nat) (d : InputDatum) (s : List ℚ) (q : ℚ),
      d.predScores = JSVal.arr s → s[i]? = some q →
      ((rowPredFor true applyColor con pk cr label i d).isSome = true ↔
        SPARSE_MODE_THRESHOLD ≤ q)) := by
  constructor
  · decide
  · intro applyColor con pk cr label i d s q hps hq
    by_cases hq2 : SPARSE_MODE_THRESHOLD ≤ q
    · simp [rowPredFor, hps, indexVal, hq, scoreAboveThreshold, hq2]
    · simp [rowPredFor, hps, indexVal, hq, scoreAboveThreshold, hq2]

/-- C4 witness: the general filter applied at score 0.005, which the
threshold excludes. -/
theorem C4_sparse_mode_filter_witness :
    ((rowPredFor true false "color" "pk" [] "a" 0
        ⟨JSVal.arr [mkRat 1 200, mkRat 1 5, mkRat 159 200],
         JSVal.null, JSVal.null⟩).isSome = true ↔
      SPARSE_MODE_THRESHOLD ≤ mkRat 1 200) :=
  C4_sparse_mode_filter.2 false "color" "pk" [] "a" 0
    ⟨JSVal.arr [mkRat 1 200, mkRat 1 5, mkRat 159 200], JSVal.null, JSVal.null⟩
    [mkRat 1 200, mkRat 1 5, mkRat 159 200] (mkRat 1 200) rfl rfl

/-- C5: for an input row with a null score vector and a head with a
declared vocabulary, the row contributes, under every vocabulary label, the
placeholder row with value 0 and false truth and prediction flags when
sparse mode is off, and nothing at all when sparse mode is on. -/
theorem C5_null_scores_placeholder (applyColor : Bool) (con pk : String)
    (cr : List String) (pc tr : JSVal) :
    (∀ (label : String) (i : Nat),
      rowPredFor false applyColor con pk cr label i ⟨JSVal.null, pc, tr⟩ =
        some ⟨some 0, false, false, none⟩ ∧
      rowPredFor true applyColor con pk cr label i ⟨JSVal.null, pc, tr⟩ =
        none) ∧
    (∀ (labels : List String) (label : String), label ∈ labels →
      lookupKey
        (headRows false applyColor con pk cr labels [⟨JSVal.null, pc, tr⟩])
        label = some [⟨some 0, false, false, none⟩]) ∧
    (∀ labels : List String,
      headRows true applyColor con pk cr labels [⟨JSVal.null, pc, tr⟩] = []) := by
  refine ⟨?_, ?_, ?_⟩
  · intro label i
    constructor
    · simp [rowPredFor]
    · simp [rowPredFor]
  · intro labels label hmem
    unfold headRows
    apply foldl_assign_const
    · intro acc il
      simp [rowPredFor]
    · left
      obtain ⟨n, hn⟩ := List.mem_iff_getElem?.mp hmem
      exact ⟨n, List.mk_mem_enum_iff_getElem?.mpr hn⟩
  · intro labels
    unfold headRows
    apply foldl_const
    intro acc il
    simp [rowPredFor]

/-- C5 witness: the placeholder conjunct applied at a concrete label and
index. -/
theorem C5_null_scores_placeholder_witness :
    lookupKey
      (headRows false false "color" "pk" [] ["a", "b"]
        [⟨JSVal.null, JSVal.null, JSVal.null⟩]) "b" =
      some [⟨some 0, false, false, none⟩] :=
  (C5_null_scores_placeholder false "color" "pk" []
    JSVal.null JSVal.null).2.1 ["a", "b"] "b" (by simp)

/-- C6: when a label carries exactly a pinned and a selected display value,
the rendered row for that label ends with the derived delta cell holding
the absolute difference of the two values. -/
theorem C6_delta_row (lr : LabelRows) (i : Nat) (label : String)
    (p s : DisplayInfo) (a b : ℚ)
    (hrow : lr[i]? = some (label, [p, s]))
    (hp : p.value = some a) (hs : s.value = some b) :
    (renderFeatureTable lr)[i]? =
      some (TableCell.text label ::
        [TableCell.bar (some a), TableCell.bar (some b)] ++
        [TableCell.num (some |a - b|)]) := by
  unfold renderFeatureTable
  rw [List.getElem?_map, hrow]
  simp [rowFor, deltaCell, hp, hs]

/-- C6 witness: pinned score 0.3 and selected score 0.8 for label x yield
the delta 0.5. -/
theorem C6_delta_row_witness :
    (renderFeatureTable lrC6)[0]? =
      some (TableCell.text "x" ::
        [TableCell.bar (some (mkRat 3 10)), TableCell.bar (some (mkRat 4 5))] ++
        [TableCell.num (some (mkRat 1 2))]) := by
  have h := C6_delta_row lrC6 0 "x"
    ⟨some (mkRat 3 10), false, false, none⟩
    ⟨some (mkRat 4 5), true, false, none⟩
    (mkRat 3 10) (mkRat 4 5) rfl rfl rfl
  rw [abs_sub_sample] at h
  exact h

/-! Helper lemmas for the slice service state. -/

theorem map_fst_overwrite {α : Type} (m : List (String × α)) (k : String)
    (v : α) :
    (m.map (fun p => if p.1 = k then (k, v) else p)).map Prod.fst =
      m.map Prod.fst := by
  induction m with
  | nil => rfl
  | cons p rest ih =>
    by_cases hp : p.1 = k
    · simp [hp, ih]
    · simp [hp, ih]

theorem mem_map_fst_of_lookup_isSome {α : Type} (m : List (String × α))
    (k : String) (h : (lookupKey m k).isSome = true) :
    k ∈ m.map Prod.fst := by
  induction m with
  | nil => simp [lookupKey] at h
  | cons p rest ih =>
    by_cases hp : p.1 = k
    · simp [hp.symm]
    · rw [lookupKey, if_neg hp] at h
      simp [ih h]

theorem getSliceIds_setSliceIds_self (st : SliceState) (n : String)
    (ids : Finset String) (h : (getSliceIds st n).isSome = true) :
    getSliceIds (setSliceIds st n ids) n = some ids :=
  lookupKey_overwrite_self st.slices n ids h

theorem getSliceIds_setSliceIds_ne (st : SliceState) (n : String)
    (ids : Finset String) (m : String) (h : ¬ m = n) :
    getSliceIds (setSliceIds st n ids) m = getSliceIds st m :=
  lookupKey_overwrite_ne st.slices n ids m h

theorem union_sdiff_cancel {X S : Finset String} (h : X ∩ S = ∅) :
    (S ∪ X) \ X = S := by
  ext a
  simp only [Finset.mem_sdiff, Finset.mem_union]
  constructor
  · rintro ⟨h1 | h2, h3⟩
    · exact h1
    · exact absurd h2 h3
  · intro ha
    refine ⟨Or.inl ha, fun hX => ?_⟩
    have hmem : a ∈ X ∩ S := Finset.mem_inter.mpr ⟨hX, ha⟩
    rw [h] at hmem
    exact absurd hmem (Finset.not_mem_empty a)

/-- C3 counterexample: adding an id set and then removing the same id set
does not restore the original membership when the added ids overlap the
slice.  Starting from a slice holding id a, adding and removing the set
containing a empties the slice. -/
theorem C3_counterexample :
    getSliceIds stC3 "s" = some {"a"} ∧
    ((addIds stC3 "s" {"a"}).toOption.bind
        (fun st1 => (removeIds st1 "s" {"a"}).toOption)).map
      (fun st2 => getSliceIds st2 "s") = some (some ∅) ∧
    ¬ (some (∅ : Finset String) = some ({"a"} : Finset String)) := by
  refine ⟨by decide, by decide, by decide⟩

/-- C3 (amended): addIds followed by removeIds with the same id set
restores the slice membership, and indeed the whole slice state, exactly
when the added id set is disjoint from the slice's previous membership; in
general the round trip yields the previous membership minus the shared
ids. -/
theorem C3_roundtrip_of_disjoint (st : SliceState) (name : String)
    (X S : Finset String) (hS : getSliceIds st name = some S)
    (hdisj : X ∩ S = ∅) :
    ∃ st1 st2, addIds st name X = Except.ok st1 ∧
      removeIds st1 name X = Except.ok st2 ∧
      ∀ n, getSliceIds st2 n = getSliceIds st n := by
  have hsome : (getSliceIds st name).isSome = true := by rw [hS]; rfl
  have h1 : getSliceIds (setSliceIds st name (S ∪ X)) name = some (S ∪ X) :=
    getSliceIds_setSliceIds_self st name (S ∪ X) hsome
  have h1some : (getSliceIds (setSliceIds st name (S ∪ X)) name).isSome = true := by
    rw [h1]; rfl
  refine ⟨setSliceIds st name (S ∪ X),
    setSliceIds (setSliceIds st name (S ∪ X)) name ((S ∪ X) \ X),
    ?_, ?_, ?_⟩
  · simp only [addIds, hS]
  · simp only [removeIds, h1]
  · intro n
    by_cases hn : n = name
    · subst hn
      rw [getSliceIds_setSliceIds_self _ _ _ h1some, union_sdiff_cancel hdisj,
        hS]
    · rw [getSliceIds_setSliceIds_ne _ _ _ _ hn,
        getSliceIds_setSliceIds_ne _ _ _ _ hn]

/-- C3 witness: the amended round trip applied to a slice holding id a and
the disjoint added set containing id b. -/
theorem C3_roundtrip_of_disjoint_witness :
    ∃ st1 st2, addIds stC3w "s" {"b"} = Except.ok st1 ∧
      removeIds st1 "s" {"b"} = Except.ok st2 ∧
      ∀ n, getSliceIds st2 n = getSliceIds stC3w n :=
  C3_roundtrip_of_disjoint stC3w "s" {"b"} {"a"} (by decide) (by decide)

/-- C7: deleting the reserved starred slice always fails with
ProtectedSliceError; the clear action of the module (removing the full
current id set) always succeeds on the starred slice and leaves it
enumerable with an empty id set; and the slice row offers the clear action
exactly for the starred slice, the delete action for every other slice. -/
theorem C7_starred_slice_protected :
    (∀ st : SliceState, deleteSlice st STARRED_SLICE_NAME =
      Except.error SliceError.protectedSlice) ∧
    (∀ (st : SliceState) (S : Finset String),
      getSliceIds st STARRED_SLICE_NAME = some S →
      ∃ st2, clearClicked st STARRED_SLICE_NAME = Except.ok st2 ∧
        getSliceIds st2 STARRED_SLICE_NAME = some ∅ ∧
        STARRED_SLICE_NAME ∈ st2.slices.map Prod.fst) ∧
    (∀ name, sliceRowAction name = SliceRowAction.clearAction ↔
      name = STARRED_SLICE_NAME) := by
  refine ⟨?_, ?_, ?_⟩
  · intro st
    rw [deleteSlice, if_pos rfl]
  · intro st S hS
    have hsome : (getSliceIds st STARRED_SLICE_NAME).isSome = true := by
      rw [hS]; rfl
    refine ⟨setSliceIds st STARRED_SLICE_NAME (S \ S), ?_, ?_, ?_⟩
    · simp only [clearClicked, hS, Option.getD_some, removeIds]
    · rw [getSliceIds_setSliceIds_self st _ _ hsome, Finset.sdiff_self]
    · rw [setSliceIds, map_fst_overwrite]
      exact mem_map_fst_of_lookup_isSome st.slices STARRED_SLICE_NAME hsome
  · intro name
    unfold sliceRowAction
    by_cases h : name = STARRED_SLICE_NAME
    · simp [h]
    · simp [h]

/-- C7 witness: the clear conjunct applied to a concrete state whose
starred slice holds id a. -/
theorem C7_starred_slice_protected_witness :
    ∃ st2, clearClicked stC7 STARRED_SLICE_NAME = Except.ok st2 ∧
      getSliceIds st2 STARRED_SLICE_NAME = some ∅ ∧
      STARRED_SLICE_NAME ∈ st2.slices.map Prod.fst :=
  C7_starred_slice_protected.2.1 stC7 {"a"} rfl

/-- Characterisation of the single-feature grouping pipeline as a map over
the deduplicated observed labels. -/
theorem makeSlices_eq (pfx : String) (getLabel : Input → Option String)
    (rows : List Input) :
    makeSlicesFromAllLabelCombos pfx getLabel rows =
      ((rows.filterMap getLabel).dedup).map
        (fun l => (pfx ++ l,
          (rows.filter (fun r => getLabel r = some l)).map Input.id)) := by
  unfold makeSlicesFromAllLabelCombos groupByFeature
  rw [List.map_map]
  rfl

/-- C8: for any rows with distinct ids and a single grouping feature, the
created slices are non-empty and pairwise disjoint, and their ids together
cover exactly the rows that have a defined value for the feature. -/
theorem C8_grouping_partition (pfx : String)
    (getLabel : Input → Option String) (rows : List Input)
    (hnodup : (rows.map Input.id).Nodup) :
    (∀ sl ∈ makeSlicesFromAllLabelCombos pfx getLabel rows, ¬ sl.2 = []) ∧
    (makeSlicesFromAllLabelCombos pfx getLabel rows).Pairwise
      (fun sl tl => ∀ x, x ∈ sl.2 → ¬ x ∈ tl.2) ∧
    (∀ x, (∃ sl ∈ makeSlicesFromAllLabelCombos pfx getLabel rows, x ∈ sl.2) ↔
      ∃ r ∈ rows, r.id = x ∧ (getLabel r).isSome = true) := by
  have hinj : ∀ r1 ∈ rows, ∀ r2 ∈ rows, r1.id = r2.id → r1 = r2 :=
    fun r1 h1 r2 h2 he => List.inj_on_of_nodup_map hnodup h1 h2 he
  rw [makeSlices_eq]
  refine ⟨?_, ?_, ?_⟩
  · intro sl hsl
    rw [List.mem_map] at hsl
    obtain ⟨l, hl, rfl⟩ := hsl
    rw [List.mem_dedup, List.mem_filterMap] at hl
    obtain ⟨r, hr, hlr⟩ := hl
    intro hemp
    have hemp2 : (rows.filter (fun r2 => getLabel r2 = some l)).map
        Input.id = [] := hemp
    have hrf : r ∈ rows.filter (fun r2 => getLabel r2 = some l) :=
      List.mem_filter.mpr ⟨hr, by simp [hlr]⟩
    have hxm : r.id ∈ (rows.filter (fun r2 => getLabel r2 = some l)).map
        Input.id := List.mem_map.mpr ⟨r, hrf, rfl⟩
    rw [hemp2] at hxm
    simp at hxm
  · rw [List.pairwise_map]
    apply List.Pairwise.imp ?_ (List.nodup_dedup (rows.filterMap getLabel))
    intro l1 l2 hne x hx1 hx2
    rw [List.mem_map] at hx1 hx2
    obtain ⟨r1, hr1f, hid1⟩ := hx1
    obtain ⟨r2, hr2f, hid2⟩ := hx2
    rw [List.mem_filter] at hr1f hr2f
    have hl1p : getLabel r1 = some l1 := by simpa using hr1f.2
    have hl2p : getLabel r2 = some l2 := by simpa using hr2f.2
    have hr12 : r1 = r2 := hinj r1 hr1f.1 r2 hr2f.1 (by rw [hid1, hid2])
    rw [hr12, hl2p] at hl1p
    exact hne (Option.some.inj hl1p).symm
  · intro x
    constructor
    · rintro ⟨sl, hsl, hx⟩
      rw [List.mem_map] at hsl
      obtain ⟨l, hl, rfl⟩ := hsl
      rw [List.mem_map] at hx
      obtain ⟨r, hrf, hid⟩ := hx
      rw [List.mem_filter] at hrf
      have hlrp : getLabel r = some l := by simpa using hrf.2
      exact ⟨r, hrf.1, hid, by rw [hlrp]; rfl⟩
    · rintro ⟨r, hr, hid, hsome⟩
      obtain ⟨l, hl⟩ := Option.isSome_iff_exists.mp hsome
      refine ⟨(pfx ++ l,
        (rows.filter (fun r2 => getLabel r2 = some l)).map Input.id), ?_, ?_⟩
      · rw [List.mem_map]
        refine ⟨l, ?_, rfl⟩
        rw [List.mem_dedup, List.mem_filterMap]
        exact ⟨r, hr, hl⟩
      · rw [List.mem_map]
        exact ⟨r, List.mem_filter.mpr ⟨hr, by simp [hl]⟩, hid⟩

/-- C8 witness: the partition applied to three concrete rows, two of which
have a defined feature value. -/
theorem C8_grouping_partition_witness :
    (∀ sl ∈ makeSlicesFromAllLabelCombos "" labelC8 rowsC8, ¬ sl.2 = []) ∧
    (makeSlicesFromAllLabelCombos "" labelC8 rowsC8).Pairwise
      (fun sl tl => ∀ x, x ∈ sl.2 → ¬ x ∈ tl.2) ∧
    (∀ x, (∃ sl ∈ makeSlicesFromAllLabelCombos "" labelC8 rowsC8, x ∈ sl.2) ↔
      ∃ r ∈ rowsC8, r.id = x ∧ (labelC8 r).isSome = true) :=
  C8_grouping_partition "" labelC8 rowsC8 (by decide)

/-- C9: the export function returns one row per datapoint of the slice,
each row being the dataset index of the datapoint followed by its feature
values in the order of the current dataset column keys. -/
theorem C9_getArrayData_rows (env : SliceModuleEnv) (sliceName : String) :
    ((getArrayData env sliceName).length =
      (env.getSliceDataByName sliceName).length) ∧
    (∀ (i : Nat) (row : IndexedInput),
      (env.getSliceDataByName sliceName)[i]? = some row →
      ∃ cells, (getArrayData env sliceName)[i]? =
          some (TableEntry.idx (env.getIndexById row.id) :: cells) ∧
        cells.length = env.currentInputDataKeys.length ∧
        ∀ (j : Nat) (key : String),
          env.currentInputDataKeys[j]? = some key →
          cells[j]? = some (TableEntry.val (lookupKey row.data key))) := by
  constructor
  · unfold getArrayData
    rw [List.length_map]
  · intro i row hrow
    refine ⟨env.currentInputDataKeys.map
      (fun c => TableEntry.val (lookupKey row.data c)), ?_, ?_, ?_⟩
    · unfold getArrayData
      rw [List.getElem?_map, hrow]
      rfl
    · rw [List.length_map]
    · intro j key hk
      rw [List.getElem?_map, hk]
      rfl

/-- C9 witness: the export row shape at a concrete environment and
datapoint. -/
theorem C9_getArrayData_rows_witness :
    ∃ cells, (getArrayData envC9 "slice")[0]? =
        some (TableEntry.idx (envC9.getIndexById "r1") :: cells) ∧
      cells.length = envC9.currentInputDataKeys.length ∧
      ∀ (j : Nat) (key : String),
        envC9.currentInputDataKeys[j]? = some key →
        cells[j]? = some (TableEntry.val
          (lookupKey [("f1", JSVal.num 1)] key)) :=
  (C9_getArrayData_rows envC9 "slice").2 0 ⟨"r1", [("f1", JSVal.num 1)]⟩ rfl

end LitSpec
